import Mathlib

/-!
Verification of the golf "skins" scoring engine in `src/skins.js`
(component `GolfSkinsAnalyzer`).

The JavaScript core is embedded shallowly:
  * a CSV cell (as delivered by the external table parser, possibly with
    `dynamicTyping`) is a string, a number, or null/undefined (`Cell`);
  * JavaScript numbers that can arise in the scoring pipeline are modelled
    by `JVal`: an integer, `NaN` (from a failed `parseInt`/arithmetic on
    `undefined`), or `+Infinity` (the value of `Math.min()` on no
    arguments).  Finite numeric cell values are modelled as rationals.
  * the builtins `parseInt` / `parseFloat` are modelled for plain decimal
    literals (optional sign, digits, and for `parseFloat` a fractional
    part); every other string yields `none`, standing for `NaN`.
  * a thrown JavaScript `TypeError` (from `row[2]?.includes("Pars")` when
    `row[2]` is a number and hence has no `includes` method) is modelled
    with `Except`.
-/

attribute [local semireducible] Rat.add Rat.mul Rat.inv Rat.sub Rat.ofScientific

/-- A raw table cell: a string, a finite number, or null/undefined
(missing cells index as `undefined` in JavaScript). -/
inductive Cell where
  | str : String → Cell
  | num : ℚ → Cell
  | null : Cell
deriving DecidableEq, Repr

/-- JavaScript truthiness of a cell value: `""`, `0`, `null`/`undefined`
are falsy, every other string or number is truthy. -/
def truthy : Cell → Bool
  | Cell.str s => decide (s ≠ "")
  | Cell.num q => decide (q ≠ 0)
  | Cell.null => false

/-- A JavaScript number as it occurs in the per-hole minimum computation:
an integer net score, `NaN`, or `+Infinity` (identity of `Math.min`). -/
inductive JVal where
  | int : ℤ → JVal
  | nan : JVal
  | inf : JVal
deriving DecidableEq, Repr

/-- JavaScript strict equality `===` restricted to `JVal`: `NaN` is equal
to nothing, including itself. -/
def jsEq : JVal → JVal → Bool
  | JVal.int a, JVal.int b => decide (a = b)
  | JVal.inf, JVal.inf => true
  | _, _ => false

/-- Binary `Math.min`: `NaN` absorbs, `Infinity` is the identity. -/
def jsMin2 : JVal → JVal → JVal
  | JVal.nan, _ => JVal.nan
  | _, JVal.nan => JVal.nan
  | JVal.inf, x => x
  | x, JVal.inf => x
  | JVal.int a, JVal.int b => JVal.int (min a b)

/-- `Math.min(...l)`: folds `jsMin2` with `+Infinity` as the value on an
empty argument list. -/
def jsMin (l : List JVal) : JVal := l.foldr jsMin2 JVal.inf

/-- The integer carried by a `JVal`, defaulting to 0 for `NaN`/`Infinity`
(only used under hypotheses ruling those out). -/
def JVal.toZ : JVal → ℤ
  | JVal.int z => z
  | _ => 0

/-- Numeric value of a list of decimal digit characters. -/
def digitsVal (ds : List Char) : ℤ :=
  ds.foldl (fun acc c => acc * 10 + ((c.toNat : ℤ) - ('0'.toNat : ℤ))) 0

/-- `parseInt` on a string, modelled for plain decimal input: skip
leading spaces, optional sign, then a non-empty run of digits; any other
shape gives `none` (= `NaN`). -/
def parseIntStr (s : String) : Option ℤ :=
  let cs := s.data.dropWhile (fun c => decide (c = ' '))
  let signAndRest : ℤ × List Char :=
    match cs with
    | '-' :: r => (-1, r)
    | '+' :: r => (1, r)
    | r => (1, r)
  let ds := signAndRest.2.takeWhile Char.isDigit
  if ds.isEmpty then none else some (signAndRest.1 * digitsVal ds)

/-- `parseFloat` on a string, modelled for plain decimal input: skip
leading spaces, optional sign, digits, optionally a point and more
digits; at least one digit must be present. -/
def parseFloatStr (s : String) : Option ℚ :=
  let cs := s.data.dropWhile (fun c => decide (c = ' '))
  let signAndRest : ℚ × List Char :=
    match cs with
    | '-' :: r => (-1, r)
    | '+' :: r => (1, r)
    | r => (1, r)
  let intPart := signAndRest.2.takeWhile Char.isDigit
  let rest := signAndRest.2.drop intPart.length
  let fracPart : List Char :=
    match rest with
    | '.' :: r => r.takeWhile Char.isDigit
    | _ => []
  if intPart.isEmpty ∧ fracPart.isEmpty then none
  else
    some (signAndRest.1 *
      ((digitsVal intPart : ℚ) + (digitsVal fracPart : ℚ) / (10 ^ fracPart.length)))

/-- Truncation toward zero, as JavaScript `parseInt` applied to a finite
number (via its decimal string). -/
def ratTrunc (q : ℚ) : ℤ := if 0 ≤ q then ⌊q⌋ else ⌈q⌉

/-- `parseInt(cell)`: a number truncates toward zero, a string is parsed,
`undefined` gives `NaN` (`none`). -/
def parseIntCell : Cell → Option ℤ
  | Cell.num q => some (ratTrunc q)
  | Cell.str s => parseIntStr s
  | Cell.null => none

/-- `parseFloat(cell)`: a number is itself, a string is parsed,
`undefined` gives `NaN` (`none`). -/
def parseFloatCell : Cell → Option ℚ
  | Cell.num q => some q
  | Cell.str s => parseFloatStr s
  | Cell.null => none

/-- `s.includes("Pars")`: some suffix of `s` starts with `"Pars"`. -/
def containsPars (s : String) : Bool :=
  (List.range (s.length + 1)).any (fun i => "Pars".isPrefixOf (s.drop i))

/-- `calculateStrokesReceived(halfHandicap, holeHandicap)` from
`src/skins.js` lines 11-18: for a fractional half handicap a stroke is
received iff the hole handicap is at most `Math.ceil(halfHandicap)`, for
an integer half handicap iff it is at most the half handicap itself.
`halfHandicap % 1 !== 0` is rendered as `den ≠ 1`. -/
def calculateStrokesReceived (halfHandicap : ℚ) (holeHandicap : ℤ) : ℤ :=
  if halfHandicap.den ≠ 1 then
    if holeHandicap ≤ ⌈halfHandicap⌉ then 1 else 0
  else
    if (holeHandicap : ℚ) ≤ halfHandicap then 1 else 0

/-- A player record as built on lines 37-42 of `src/skins.js`: name is the
raw first cell, handicaps come from `parseFloat(row[13]) || 0`, the nine
gross scores from `row.slice(3, 12).map(parseInt)` (`none` stands for
`NaN`). -/
structure Player where
  name : Cell
  fullHandicap : ℚ
  halfHandicap : ℚ
  scores : List (Option ℤ)
deriving DecidableEq, Repr

/-- Build one `Player` from a raw row (lines 37-42).  `parseFloat(...) || 0`
maps `NaN` (and 0 itself) to 0, rendered by `Option.getD 0`. -/
def mkPlayer (row : List Cell) : Player :=
  { name := row.getD 0 Cell.null
    fullHandicap := (parseFloatCell (row.getD 13 Cell.null)).getD 0
    halfHandicap := (parseFloatCell (row.getD 13 Cell.null)).getD 0 / 2
    scores := ((row.drop 3).take 9).map parseIntCell }

/-- The row filter of lines 26-34: the first cell must be truthy and must
differ from the reserved strings; then `!row[2]?.includes("Pars")` is
evaluated — on a null/undefined third cell the optional chain yields
`undefined`, whose negation is `true`; on a numeric third cell the call
to `.includes` throws a `TypeError`. -/
def isPlayerRow (row : List Cell) : Except String Bool :=
  let c0 := row.getD 0 Cell.null
  if truthy c0 && !(decide (c0 = Cell.str "Player")) &&
      !(decide (c0 = Cell.str "HDCP")) && !(decide (c0 = Cell.str "PAR")) &&
      !(decide (c0 = Cell.str "")) then
    match row.getD 2 Cell.null with
    | Cell.null => Except.ok true
    | Cell.str s => Except.ok (!(containsPars s))
    | Cell.num _ => Except.error "TypeError"
  else
    Except.ok false

/-- `data.filter(...)` with the callback of lines 26-34; a thrown
`TypeError` aborts the whole filter. -/
def filterRowsE : List (List Cell) → Except String (List (List Cell))
  | [] => Except.ok []
  | row :: rest =>
    match isPlayerRow row with
    | Except.error e => Except.error e
    | Except.ok b =>
      match filterRowsE rest with
      | Except.error e => Except.error e
      | Except.ok tail => Except.ok (if b then row :: tail else tail)

/-- One entry of a hole's `netScores` array (lines 58-70). -/
structure NetScore where
  name : Cell
  gross : Option ℤ
  net : JVal
  strokes : ℤ
deriving DecidableEq, Repr

instance : Inhabited NetScore := ⟨⟨Cell.null, none, JVal.nan, 0⟩⟩

/-- One per-hole result (lines 76-90). -/
structure HoleResult where
  winner : Cell
  value : ℤ
  scores : List NetScore
deriving DecidableEq, Repr

/-- The net-score callback of lines 58-70, one player at a time.
`player.scores[holeIndex]` on a too-short scores array is `undefined`,
and `undefined - strokesReceived` is `NaN`. -/
def mkNetScore (holeHandicap : ℤ) (holeIndex : ℕ) (player : Player) : NetScore :=
  let strokesReceived := calculateStrokesReceived player.halfHandicap holeHandicap
  let grossScore := player.scores.getD holeIndex none
  { name := player.name
    gross := grossScore
    net := match grossScore with
           | none => JVal.nan
           | some g => JVal.int (g - strokesReceived)
    strokes := strokesReceived }

/-- The `netScores` array of a hole (lines 58-70). -/
def holeNetScores (playerData : List Player) (holeHandicap : ℤ) (holeIndex : ℕ) :
    List NetScore :=
  playerData.map (mkNetScore holeHandicap holeIndex)

/-- `lowestNet` of a hole (line 73): `Math.min` over the net scores. -/
def holeLowestNet (playerData : List Player) (holeHandicap : ℤ) (holeIndex : ℕ) :
    JVal :=
  jsMin ((holeNetScores playerData holeHandicap holeIndex).map NetScore.net)

/-- `winners` of a hole (line 74): the net scores strictly equal to
`lowestNet`. -/
def holeWinners (playerData : List Player) (holeHandicap : ℤ) (holeIndex : ℕ) :
    List NetScore :=
  (holeNetScores playerData holeHandicap holeIndex).filter fun s =>
    jsEq s.net (holeLowestNet playerData holeHandicap holeIndex)

/-- The body of the per-hole loop (lines 53-91): a single winner takes the
skin, any other winner count gives the sentinel. -/
def holeResult (playerData : List Player) (holeHandicap : ℤ) (holeIndex : ℕ) :
    HoleResult :=
  if (holeWinners playerData holeHandicap holeIndex).length = 1 then
    { winner := (holeWinners playerData holeHandicap holeIndex).headI.name
      value := 1
      scores := holeNetScores playerData holeHandicap holeIndex }
  else
    { winner := Cell.str "No Winner"
      value := 0
      scores := holeNetScores playerData holeHandicap holeIndex }

/-- The hardcoded hole-difficulty table of line 47. -/
def actualHoleHandicaps : List ℤ := [4, 14, 16, 2, 18, 8, 6, 12, 10]

/-- The per-hole loop generalised over the difficulty table it reads. -/
def skinsResultsWith (table : List ℤ) (playerData : List Player) :
    List HoleResult :=
  (List.range 9).map fun holeIndex =>
    holeResult playerData (table.getD holeIndex 0) holeIndex

/-- The nine hole results produced by `analyzeSkins` (holes 1-9 keyed by
index 0-8), always read from the constant table. -/
def skinsResults (playerData : List Player) : List HoleResult :=
  skinsResultsWith actualHoleHandicaps playerData

/-- The whole engine `analyzeSkins` (lines 21-94) as a pure function from
the raw table to the nine hole results; a `TypeError` from the row filter
propagates. -/
def analyzeSkins (data : List (List Cell)) : Except String (List HoleResult) :=
  match filterRowsE data with
  | Except.error e => Except.error e
  | Except.ok rows => Except.ok (skinsResults (rows.map mkPlayer))

/-- The component state written by `analyzeSkins` via `setPlayers`,
`setHoleHandicaps`, `setSkinsResults`. -/
structure ComponentState where
  players : List Player
  holeHandicaps : List ℤ
  skinsResults : List HoleResult
deriving DecidableEq, Repr

/-- Running `analyzeSkins` against a component state: on a throw (which
happens before any `set...` call) the state is left unchanged, otherwise
every stateful field is overwritten from the input alone. -/
def analyzeSkinsRun (s : ComponentState) (data : List (List Cell)) :
    ComponentState :=
  match filterRowsE data with
  | Except.error _ => s
  | Except.ok rows =>
    { players := rows.map mkPlayer
      holeHandicaps := actualHoleHandicaps
      skinsResults := skinsResults (rows.map mkPlayer) }

/-- The "Total Skins by Player" aggregation (lines 247-254): sum of
`value` over the hole results whose `winner` is the given name. -/
def totalSkins (results : List HoleResult) (name : Cell) : ℤ :=
  ((results.filter fun r => decide (r.winner = name)).map HoleResult.value).sum

/-! Spec-side definitions, phrased from the specification's words and
used only on the property side of the theorems. -/

/-- Minimum of a list of integers, `none` on the empty list. -/
def specMin : List ℤ → Option ℤ
  | [] => none
  | a :: as =>
    some (match specMin as with
          | none => a
          | some m => min a m)

/-- The specification's row classification: first cell truthy
("non-empty") and not a reserved header token, and the third cell does
not contain the substring `"Pars"` (a non-string third cell contains no
substring). -/
def specIsPlayerRow (row : List Cell) : Bool :=
  truthy (row.getD 0 Cell.null) &&
  !(decide (row.getD 0 Cell.null = Cell.str "Player")) &&
  !(decide (row.getD 0 Cell.null = Cell.str "HDCP")) &&
  !(decide (row.getD 0 Cell.null = Cell.str "PAR")) &&
  (match row.getD 2 Cell.null with
   | Cell.str s => !(containsPars s)
   | _ => true)

/-- The integer net scores of a hole result, one per player. -/
def specNets (r : HoleResult) : List ℤ :=
  r.scores.map fun s => JVal.toZ s.net

/-- Sum of `skinValue` over a sequence of hole results. -/
def sumValues (results : List HoleResult) : ℤ :=
  (results.map HoleResult.value).sum

/-- The number of holes whose winner name equals the given name. -/
def countWins (results : List HoleResult) (name : Cell) : ℕ :=
  (results.filter fun r => decide (r.winner = name)).length

/-! Helper lemmas. -/

theorem rat_int_iff_den_eq_one (q : ℚ) : (∃ n : ℤ, q = (n : ℚ)) ↔ q.den = 1 := by
  constructor
  · rintro ⟨n, rfl⟩
    exact Rat.den_intCast n
  · intro h
    exact ⟨q.num, (Rat.coe_int_num_of_den_eq_one h).symm⟩

theorem jsMin2_nan_right (x : JVal) : jsMin2 x JVal.nan = JVal.nan := by
  cases x <;> rfl

theorem jsMin2_nan_left (x : JVal) : jsMin2 JVal.nan x = JVal.nan := by
  cases x <;> rfl

theorem jsEq_nan_right (x : JVal) : jsEq x JVal.nan = false := by
  cases x <;> rfl

theorem jsMin_of_nan_mem (l : List JVal) (h : JVal.nan ∈ l) :
    jsMin l = JVal.nan := by
  induction l with
  | nil => cases h
  | cons a as ih =>
    rcases List.mem_cons.mp h with ha | ha
    · show jsMin2 a (jsMin as) = JVal.nan
      rw [← ha, jsMin2_nan_left]
    · show jsMin2 a (jsMin as) = JVal.nan
      rw [ih ha, jsMin2_nan_right]

theorem jsMin_int_map (zs : List ℤ) :
    jsMin (zs.map JVal.int) =
      (match specMin zs with
       | none => JVal.inf
       | some m => JVal.int m) := by
  induction zs with
  | nil => rfl
  | cons a as ih =>
    show jsMin2 (JVal.int a) (jsMin (as.map JVal.int)) = _
    rw [ih]
    cases h : specMin as with
    | none => simp [specMin, h, jsMin2]
    | some m => simp [specMin, h, jsMin2]

theorem holeResult_cases (pd : List Player) (hh : ℤ) (hi : ℕ) :
    ((holeWinners pd hh hi).length = 1 ∧
      holeResult pd hh hi =
        ⟨(holeWinners pd hh hi).headI.name, 1, holeNetScores pd hh hi⟩) ∨
    ((holeWinners pd hh hi).length ≠ 1 ∧
      holeResult pd hh hi =
        ⟨Cell.str "No Winner", 0, holeNetScores pd hh hi⟩) := by
  by_cases h : (holeWinners pd hh hi).length = 1
  · exact Or.inl ⟨h, by rw [holeResult, if_pos h]⟩
  · exact Or.inr ⟨h, by rw [holeResult, if_neg h]⟩

theorem headCond_eq (c : Cell) :
    (truthy c && !(decide (c = Cell.str "Player")) &&
      !(decide (c = Cell.str "HDCP")) && !(decide (c = Cell.str "PAR")) &&
      !(decide (c = Cell.str ""))) =
    (truthy c && !(decide (c = Cell.str "Player")) &&
      !(decide (c = Cell.str "HDCP")) && !(decide (c = Cell.str "PAR"))) := by
  rcases c with s | q | _
  · by_cases hs : s = "" <;> simp [truthy, hs]
  · simp [truthy]
  · simp [truthy]

theorem isPlayerRow_spec (row : List Cell) :
    isPlayerRow row = Except.ok (specIsPlayerRow row) ∨
    isPlayerRow row = Except.error "TypeError" := by
  rw [isPlayerRow, specIsPlayerRow]
  rw [headCond_eq]
  by_cases hc : (truthy (row.getD 0 Cell.null) &&
      !(decide (row.getD 0 Cell.null = Cell.str "Player")) &&
      !(decide (row.getD 0 Cell.null = Cell.str "HDCP")) &&
      !(decide (row.getD 0 Cell.null = Cell.str "PAR"))) = true
  · rw [if_pos hc]
    rcases h2 : row.getD 2 Cell.null with s | q | _
    · left
      rw [hc]
      simp
    · right
      rfl
    · left
      rw [hc]
      simp
  · rw [if_neg hc]
    left
    rw [Bool.not_eq_true] at hc
    rw [hc]
    simp

/-! Claim theorems. -/

/-- C10: for every half handicap and every hole difficulty,
`calculateStrokesReceived` yields exactly 0 or exactly 1 — never negative
and never greater than 1. -/
theorem C10_strokes_zero_or_one (halfHandicap : ℚ) (holeDifficulty : ℤ) :
    calculateStrokesReceived halfHandicap holeDifficulty = 0 ∨
    calculateStrokesReceived halfHandicap holeDifficulty = 1 := by
  rw [calculateStrokesReceived]
  split
  · split
    · exact Or.inr rfl
    · exact Or.inl rfl
  · split
    · exact Or.inr rfl
    · exact Or.inl rfl

/-- C2: for a non-negative half handicap, a stroke is received iff the
hole difficulty is at most the ceiling of the half handicap when the half
handicap is not an integer, and iff it is at most the half handicap
itself when it is an integer; in particular a 4.5 half handicap earns a
stroke on difficulty 5 but not on difficulty 6. -/
theorem C2_half_handicap_rule (halfHandicap : ℚ) (holeDifficulty : ℤ)
    (_hpos : 0 ≤ halfHandicap) :
    ((¬ ∃ n : ℤ, halfHandicap = (n : ℚ)) →
      (calculateStrokesReceived halfHandicap holeDifficulty = 1 ↔
        holeDifficulty ≤ ⌈halfHandicap⌉)) ∧
    ((∃ n : ℤ, halfHandicap = (n : ℚ)) →
      (calculateStrokesReceived halfHandicap holeDifficulty = 1 ↔
        (holeDifficulty : ℚ) ≤ halfHandicap)) ∧
    calculateStrokesReceived (9 / 2) 5 = 1 ∧
    calculateStrokesReceived (9 / 2) 6 = 0 := by
  refine ⟨?_, ?_, by decide, by decide⟩
  · intro hint
    rw [rat_int_iff_den_eq_one] at hint
    rw [calculateStrokesReceived, if_pos hint]
    split
    · simp_all
    · simp_all
  · intro hint
    rw [rat_int_iff_den_eq_one] at hint
    rw [calculateStrokesReceived, if_neg (fun hne => hne hint)]
    split
    · simp_all
    · simp_all

/-- C2 witness: evaluates the rule at the concrete half handicap 4.5. -/
theorem C2_half_handicap_rule_witness :
    (0 : ℚ) ≤ 9 / 2 ∧
    calculateStrokesReceived (9 / 2) 5 = 1 ∧
    calculateStrokesReceived (9 / 2) 6 = 0 :=
  ⟨by norm_num,
   (C2_half_handicap_rule (9 / 2) 5 (by norm_num)).2.2.1,
   (C2_half_handicap_rule (9 / 2) 6 (by norm_num)).2.2.2⟩

/-- C8: the hole-difficulty table is the hardcoded constant
`[4, 14, 16, 2, 18, 8, 6, 12, 10]`, and for every input table the
analysis computes its hole results against exactly this constant, so no
caller-supplied configuration can affect stroke allocation. -/
theorem C8_fixed_difficulty_table (data : List (List Cell)) :
    actualHoleHandicaps = [4, 14, 16, 2, 18, 8, 6, 12, 10] ∧
    (∀ rows, filterRowsE data = Except.ok rows →
      analyzeSkins data =
        Except.ok (skinsResultsWith actualHoleHandicaps (rows.map mkPlayer))) := by
  refine ⟨rfl, ?_⟩
  intro rows hr
  rw [analyzeSkins, hr]
  rfl

/-- C8 witness: the empty table extracts no rows and is analysed against
the constant difficulty table. -/
theorem C8_fixed_difficulty_table_witness :
    actualHoleHandicaps = [4, 14, 16, 2, 18, 8, 6, 12, 10] ∧
    analyzeSkins [] =
      Except.ok (skinsResultsWith actualHoleHandicaps ([].map mkPlayer)) :=
  ⟨(C8_fixed_difficulty_table []).1,
   (C8_fixed_difficulty_table []).2 [] rfl⟩

/-- C9: the engine is deterministic — identical inputs produce identical
results, and (in the non-throwing case) the component state after a run
depends only on the input, not on any previously held state. -/
theorem C9_deterministic (data1 data2 : List (List Cell))
    (s1 s2 : ComponentState) (h : data1 = data2) :
    analyzeSkins data1 = analyzeSkins data2 ∧
    (∀ rows, filterRowsE data1 = Except.ok rows →
      analyzeSkinsRun s1 data1 = analyzeSkinsRun s2 data2) := by
  subst h
  refine ⟨rfl, ?_⟩
  intro rows hr
  rw [analyzeSkinsRun, analyzeSkinsRun, hr]

/-- C9 witness: two runs on the empty table from two different component
states end in the same state. -/
theorem C9_deterministic_witness :
    analyzeSkins [] = analyzeSkins [] ∧
    analyzeSkinsRun ⟨[], [], []⟩ [] =
      analyzeSkinsRun ⟨[⟨Cell.str "A", 0, 0, []⟩], [1], []⟩ [] :=
  ⟨(C9_deterministic [] [] ⟨[], [], []⟩ ⟨[], [], []⟩ rfl).1,
   (C9_deterministic [] [] ⟨[], [], []⟩ ⟨[⟨Cell.str "A", 0, 0, []⟩], [1], []⟩
      rfl).2 [] rfl⟩

/-- C3 counterexample: on a table with zero player rows the engine does
not raise — it returns a full nine-entry hole-result sequence (all "No
Winner"), contradicting the claim that no HoleResult sequence is
produced. -/
theorem C3_counterexample :
    analyzeSkins [] =
      Except.ok (List.replicate 9 ⟨Cell.str "No Winner", 0, []⟩) := rfl

/-- C3 amended: whenever row extraction yields zero player rows the
engine raises nothing and proceeds to scoring, producing nine
HoleResults, each with skinValue 0, winnerName "No Winner" and an empty
net-score list. -/
theorem C3_empty_players_proceeds (data : List (List Cell))
    (h : filterRowsE data = Except.ok []) :
    analyzeSkins data =
      Except.ok (List.replicate 9 ⟨Cell.str "No Winner", 0, []⟩) := by
  unfold analyzeSkins
  rw [h]
  rfl

/-- C3 witness: a table holding only a header row extracts zero players
and is scored to nine "No Winner" holes. -/
theorem C3_empty_players_proceeds_witness :
    filterRowsE [[Cell.str "Player"]] = Except.ok [] ∧
    analyzeSkins [[Cell.str "Player"]] =
      Except.ok (List.replicate 9 ⟨Cell.str "No Winner", 0, []⟩) :=
  ⟨rfl, C3_empty_players_proceeds [[Cell.str "Player"]] rfl⟩

/-- C5 counterexample: a row whose first cell is a truthy number and
whose third cell is numeric makes the classification throw a `TypeError`
(`row[2]?.includes` is applied to a number), so classification does not
succeed on every row. -/
theorem C5_counterexample :
    filterRowsE [[Cell.num 1, Cell.null, Cell.num 5]] =
      Except.error "TypeError" := rfl

/-- C5 amended: provided the classification succeeds on every row (in
particular no row with a truthy, non-reserved first cell has a numeric
third cell), the extracted rows are exactly those whose first cell is
truthy and not a reserved header token and whose third cell does not
contain the substring "Pars". -/
theorem C5_row_classification (data : List (List Cell))
    (H : ∀ row ∈ data, ∃ b, isPlayerRow row = Except.ok b) :
    filterRowsE data = Except.ok (data.filter specIsPlayerRow) := by
  induction data with
  | nil => rfl
  | cons row rest ih =>
    have hrow : isPlayerRow row = Except.ok (specIsPlayerRow row) := by
      rcases isPlayerRow_spec row with h | h
      · exact h
      · obtain ⟨b, hb⟩ := H row (List.mem_cons_self row rest)
        rw [h] at hb
        cases hb
    have hrest := ih fun r hr => H r (List.mem_cons_of_mem _ hr)
    simp only [filterRowsE, hrow, hrest]
    by_cases hb : specIsPlayerRow row
    · simp [List.filter_cons, hb]
    · simp [List.filter_cons, hb]

/-- C5 witness: a mixed table of header rows, a player row and an empty
row is classified without failure, and extraction agrees with the
specification predicate. -/
theorem C5_row_classification_witness :
    (∀ row ∈ [[Cell.str "Player"],
        [Cell.str "Joe", Cell.null, Cell.str "1", Cell.str "4"],
        [Cell.str "HDCP"], ([] : List Cell)],
      ∃ b, isPlayerRow row = Except.ok b) ∧
    filterRowsE [[Cell.str "Player"],
        [Cell.str "Joe", Cell.null, Cell.str "1", Cell.str "4"],
        [Cell.str "HDCP"], []] =
      Except.ok ([[Cell.str "Player"],
        [Cell.str "Joe", Cell.null, Cell.str "1", Cell.str "4"],
        [Cell.str "HDCP"], []].filter specIsPlayerRow) :=
  ⟨by intro row hr; fin_cases hr <;> exact ⟨_, rfl⟩,
   C5_row_classification _ (by intro row hr; fin_cases hr <;> exact ⟨_, rfl⟩)⟩

/-- C6: if any player's gross score on a hole is the NaN marker, that
hole's winner is the sentinel "No Winner" with skinValue 0, regardless of
the other players' scores. -/
theorem C6_nan_poisons_hole (pd : List Player) (hh : ℤ) (hi : ℕ)
    (p : Player) (hp : p ∈ pd) (hnan : p.scores.getD hi none = none) :
    (holeResult pd hh hi).winner = Cell.str "No Winner" ∧
    (holeResult pd hh hi).value = 0 := by
  have hmem : JVal.nan ∈ (holeNetScores pd hh hi).map NetScore.net := by
    refine List.mem_map.mpr
      ⟨mkNetScore hh hi p, List.mem_map.mpr ⟨p, hp, rfl⟩, ?_⟩
    simp only [mkNetScore]
    rw [hnan]
  have hlow : holeLowestNet pd hh hi = JVal.nan := jsMin_of_nan_mem _ hmem
  have hwin : holeWinners pd hh hi = [] := by
    simp only [holeWinners, hlow]
    exact List.filter_eq_nil_iff.mpr fun s _ => by simp [jsEq_nan_right]
  rw [holeResult, hwin]
  simp

/-- C6 witness: a two-player hole where the second player's score is the
NaN marker is scored "No Winner" even though the first player has a valid
lowest score. -/
theorem C6_nan_poisons_hole_witness :
    (holeResult [⟨Cell.str "A", 0, 0, [some 4]⟩,
        ⟨Cell.str "B", 0, 0, [none]⟩] 4 0).winner = Cell.str "No Winner" ∧
    (holeResult [⟨Cell.str "A", 0, 0, [some 4]⟩,
        ⟨Cell.str "B", 0, 0, [none]⟩] 4 0).value = 0 :=
  C6_nan_poisons_hole
    [⟨Cell.str "A", 0, 0, [some 4]⟩, ⟨Cell.str "B", 0, 0, [none]⟩] 4 0
    ⟨Cell.str "B", 0, 0, [none]⟩
    (List.mem_cons_of_mem _ (List.mem_cons_self _ _)) rfl

/-- C4: an unparsable gross-score cell in the fixed 9-column range is
stored as the NaN marker (never as 0), and each hole whose player set
contains such a player computes a NaN lowest net, so the minimum
computation never treats the unparsable score as a gross score of 0. -/
theorem C4_unparsable_score_is_nan (row : List Cell) (i : ℕ) (h9 : i < 9)
    (hc : parseIntCell (row.getD (3 + i) Cell.null) = none) :
    (mkPlayer row).scores.getD i none = none ∧
    (∀ z : ℤ, (mkPlayer row).scores.getD i none ≠ some z) ∧
    (∀ (pd : List Player) (hh : ℤ), mkPlayer row ∈ pd →
      holeLowestNet pd hh i = JVal.nan) := by
  have hsc : (mkPlayer row).scores.getD i none = none := by
    show (((row.drop 3).take 9).map parseIntCell).getD i none = none
    rw [List.getD_eq_getElem?_getD, List.getElem?_map,
      List.getElem?_take_of_lt h9, List.getElem?_drop]
    cases hcell : row[3 + i]? with
    | none => rfl
    | some c =>
      have hgd : row.getD (3 + i) Cell.null = c := by
        rw [List.getD_eq_getElem?_getD, hcell]
        rfl
      rw [hgd] at hc
      simp [hc]
  refine ⟨hsc, ?_, ?_⟩
  · intro z
    rw [hsc]
    simp
  · intro pd hh hpmem
    apply jsMin_of_nan_mem
    refine List.mem_map.mpr
      ⟨mkNetScore hh i (mkPlayer row), List.mem_map.mpr ⟨mkPlayer row, hpmem, rfl⟩, ?_⟩
    simp only [mkNetScore]
    rw [hsc]

/-- C4 witness: the gross-score cell "x" fails to parse; the stored score
is the NaN marker and the hole's lowest net is NaN. -/
theorem C4_unparsable_score_is_nan_witness :
    parseIntCell ([Cell.str "Joe", Cell.null, Cell.null,
        Cell.str "x"].getD (3 + 0) Cell.null) = none ∧
    (mkPlayer [Cell.str "Joe", Cell.null, Cell.null,
        Cell.str "x"]).scores.getD 0 none = none ∧
    holeLowestNet [mkPlayer [Cell.str "Joe", Cell.null, Cell.null,
        Cell.str "x"]] 4 0 = JVal.nan :=
  ⟨rfl,
   (C4_unparsable_score_is_nan
      [Cell.str "Joe", Cell.null, Cell.null, Cell.str "x"] 0
      (by decide) rfl).1,
   (C4_unparsable_score_is_nan
      [Cell.str "Joe", Cell.null, Cell.null, Cell.str "x"] 0
      (by decide) rfl).2.2
     [mkPlayer [Cell.str "Joe", Cell.null, Cell.null, Cell.str "x"]] 4
     (List.mem_singleton_self _)⟩

theorem specMin_eq_none_iff (l : List ℤ) : specMin l = none ↔ l = [] := by
  cases l <;> simp [specMin]

theorem net_int_of_isSome (pd : List Player) (hh : ℤ) (hi : ℕ)
    (H : ∀ p ∈ pd, (p.scores.getD hi none).isSome = true)
    (s : NetScore) (hs : s ∈ holeNetScores pd hh hi) :
    s.net = JVal.int (JVal.toZ s.net) := by
  obtain ⟨p, hp, rfl⟩ := List.mem_map.mp hs
  obtain ⟨g, hg⟩ := Option.isSome_iff_exists.mp (H p hp)
  simp only [mkNetScore]
  rw [hg]
  rfl

theorem netScores_map_int (pd : List Player) (hh : ℤ) (hi : ℕ)
    (H : ∀ p ∈ pd, (p.scores.getD hi none).isSome = true) :
    (holeNetScores pd hh hi).map NetScore.net =
      ((holeNetScores pd hh hi).map fun s => JVal.toZ s.net).map JVal.int := by
  rw [List.map_map]
  exact List.map_congr_left fun s hs => net_int_of_isSome pd hh hi H s hs

theorem specNets_holeResult (pd : List Player) (hh : ℤ) (hi : ℕ) :
    specNets (holeResult pd hh hi) =
      (holeNetScores pd hh hi).map fun s => JVal.toZ s.net := by
  rcases holeResult_cases pd hh hi with ⟨_, he⟩ | ⟨_, he⟩ <;> rw [he] <;> rfl

/-- C1: a hole's skinValue is 1 with the winner's name iff exactly one
player attains the minimum net score among all players for that hole;
otherwise (a tie for the minimum, or an empty player set) the skinValue
is 0 and the winner is the sentinel "No Winner".  Stated for holes on
which every gross score parsed. -/
theorem C1_skin_iff_unique_min (pd : List Player) (hh : ℤ) (hi : ℕ)
    (H : ∀ p ∈ pd, (p.scores.getD hi none).isSome = true) :
    ((∃ m, specMin (specNets (holeResult pd hh hi)) = some m ∧
        (specNets (holeResult pd hh hi)).count m = 1) →
      (holeResult pd hh hi).value = 1 ∧
      ∃ w ∈ (holeResult pd hh hi).scores,
        (holeResult pd hh hi).winner = w.name ∧
        specMin (specNets (holeResult pd hh hi)) = some (JVal.toZ w.net)) ∧
    ((¬ ∃ m, specMin (specNets (holeResult pd hh hi)) = some m ∧
        (specNets (holeResult pd hh hi)).count m = 1) →
      (holeResult pd hh hi).value = 0 ∧
      (holeResult pd hh hi).winner = Cell.str "No Winner") := by
  have hspecnets := specNets_holeResult pd hh hi
  have hlow : holeLowestNet pd hh hi =
      (match specMin ((holeNetScores pd hh hi).map fun s => JVal.toZ s.net) with
       | none => JVal.inf
       | some m => JVal.int m) := by
    rw [holeLowestNet, netScores_map_int pd hh hi H]
    exact jsMin_int_map _
  have key : ∀ m,
      specMin ((holeNetScores pd hh hi).map fun s => JVal.toZ s.net) = some m →
      holeWinners pd hh hi =
        ((holeNetScores pd hh hi).filter fun s => decide (JVal.toZ s.net = m)) ∧
      (holeWinners pd hh hi).length =
        ((holeNetScores pd hh hi).map fun s => JVal.toZ s.net).count m := by
    intro m hm
    have hlow2 : holeLowestNet pd hh hi = JVal.int m := by rw [hlow, hm]
    have hwin : holeWinners pd hh hi =
        (holeNetScores pd hh hi).filter fun s => decide (JVal.toZ s.net = m) := by
      rw [holeWinners]
      refine List.filter_congr fun s hs => ?_
      rw [hlow2, net_int_of_isSome pd hh hi H s hs]
      rfl
    refine ⟨hwin, ?_⟩
    have h1 : ((holeNetScores pd hh hi).map fun s => JVal.toZ s.net).count m
        = (holeNetScores pd hh hi).countP fun s => decide (JVal.toZ s.net = m) :=
      List.countP_map _ _ _
    rw [hwin, h1, List.countP_eq_length_filter]
  constructor
  · rintro ⟨m, hm, hc⟩
    rw [hspecnets] at hm hc
    obtain ⟨hwin, hlen⟩ := key m hm
    have hone : (holeWinners pd hh hi).length = 1 := by rw [hlen]; exact hc
    obtain ⟨w, hw⟩ := List.length_eq_one.mp hone
    have hresult : holeResult pd hh hi =
        ⟨(holeWinners pd hh hi).headI.name, 1, holeNetScores pd hh hi⟩ := by
      rw [holeResult, if_pos hone]
    have hwmem : w ∈ holeWinners pd hh hi := by
      rw [hw]
      exact List.mem_singleton_self w
    have hwns : w ∈ holeNetScores pd hh hi := by
      rw [hwin] at hwmem
      exact (List.mem_filter.mp hwmem).1
    have hwm : JVal.toZ w.net = m := by
      rw [hwin] at hwmem
      have := (List.mem_filter.mp hwmem).2
      simpa using this
    refine ⟨by rw [hresult], w, ?_, ?_, ?_⟩
    · rw [hresult]
      exact hwns
    · rw [hresult, hw]
      rfl
    · rw [hspecnets, hwm]
      exact hm
  · intro hno
    rw [hspecnets] at hno
    have hne : (holeWinners pd hh hi).length ≠ 1 := by
      intro hone
      rcases hm : specMin ((holeNetScores pd hh hi).map fun s => JVal.toZ s.net)
        with _ | m
      · have hnsnil : holeNetScores pd hh hi = [] :=
          List.map_eq_nil_iff.mp ((specMin_eq_none_iff _).mp hm)
        rw [holeWinners, hnsnil] at hone
        simp at hone
      · obtain ⟨_, hlen⟩ := key m hm
        exact hno ⟨m, hm, by rw [← hlen]; exact hone⟩
    have hresult : holeResult pd hh hi =
        ⟨Cell.str "No Winner", 0, holeNetScores pd hh hi⟩ := by
      rw [holeResult, if_neg hne]
    exact ⟨by rw [hresult], by rw [hresult]⟩

/-- C1 witness: two players with distinct net scores; the unique-minimum
player takes the skin. -/
theorem C1_skin_iff_unique_min_witness :
    (∀ p ∈ [(⟨Cell.str "A", 0, 0, [some 4]⟩ : Player),
        ⟨Cell.str "B", 0, 0, [some 5]⟩],
      (p.scores.getD 0 none).isSome = true) ∧
    ((holeResult [⟨Cell.str "A", 0, 0, [some 4]⟩,
        ⟨Cell.str "B", 0, 0, [some 5]⟩] 10 0).value = 1 ∧
      ∃ w ∈ (holeResult [⟨Cell.str "A", 0, 0, [some 4]⟩,
          ⟨Cell.str "B", 0, 0, [some 5]⟩] 10 0).scores,
        (holeResult [⟨Cell.str "A", 0, 0, [some 4]⟩,
          ⟨Cell.str "B", 0, 0, [some 5]⟩] 10 0).winner = w.name ∧
        specMin (specNets (holeResult [⟨Cell.str "A", 0, 0, [some 4]⟩,
          ⟨Cell.str "B", 0, 0, [some 5]⟩] 10 0)) = some (JVal.toZ w.net)) :=
  ⟨by decide,
   (C1_skin_iff_unique_min
      [⟨Cell.str "A", 0, 0, [some 4]⟩, ⟨Cell.str "B", 0, 0, [some 5]⟩] 10 0
      (by decide)).1 ⟨4, by decide, by decide⟩⟩

theorem sum_if_count (ns : List Cell) (x : Cell) :
    (ns.map fun n => if x = n then (1 : ℤ) else 0).sum = (ns.count x : ℤ) := by
  induction ns with
  | nil => rfl
  | cons a as ih =>
    rw [List.map_cons, List.sum_cons, List.count_cons, ih]
    by_cases h : x = a
    · subst h
      simp [add_comm]
    · have h2 : ¬ (a == x) = true := by
        simp only [beq_iff_eq]
        exact fun hax => h hax.symm
      simp [h, h2]

theorem countWins_eq_sum (rs : List HoleResult) (n : Cell) :
    (countWins rs n : ℤ) =
      (rs.map fun r => if r.winner = n then (1 : ℤ) else 0).sum := by
  induction rs with
  | nil => rfl
  | cons r rest ih =>
    rw [List.map_cons, List.sum_cons, ← ih]
    by_cases h : r.winner = n
    · simp [countWins, List.filter_cons, h, add_comm]
    · simp [countWins, List.filter_cons, h]

theorem sum_map_add_int {α : Type} (l : List α) (f g : α → ℤ) :
    (l.map fun a => f a + g a).sum = (l.map f).sum + (l.map g).sum := by
  induction l with
  | nil => simp
  | cons a as ih =>
    simp only [List.map_cons, List.sum_cons, ih]
    ring

theorem sum_map_swap {α β : Type} (l1 : List α) (l2 : List β) (F : α → β → ℤ) :
    (l1.map fun a => (l2.map fun b => F a b).sum).sum =
      (l2.map fun b => (l1.map fun a => F a b).sum).sum := by
  induction l1 with
  | nil => simp
  | cons a as ih =>
    simp only [List.map_cons, List.sum_cons, ih, ← sum_map_add_int]

theorem sum_map_value_of_all_one (l : List HoleResult)
    (h : ∀ r ∈ l, r.value = 1) :
    (l.map HoleResult.value).sum = (l.length : ℤ) := by
  induction l with
  | nil => rfl
  | cons a as ih =>
    rw [List.map_cons, List.sum_cons, h a (List.mem_cons_self a as),
      ih fun r hr => h r (List.mem_cons_of_mem _ hr), List.length_cons]
    push_cast
    ring

theorem holeResult_value_count (pd : List Player) (hh : ℤ) (hi : ℕ)
    (hnd : (pd.map Player.name).Nodup)
    (hs : Cell.str "No Winner" ∉ pd.map Player.name) :
    (holeResult pd hh hi).value =
      ((pd.map Player.name).count (holeResult pd hh hi).winner : ℤ) := by
  rcases holeResult_cases pd hh hi with ⟨h1, he⟩ | ⟨h1, he⟩
  · obtain ⟨w, hw⟩ := List.length_eq_one.mp h1
    have hwmem : w ∈ holeNetScores pd hh hi := by
      have hmem : w ∈ holeWinners pd hh hi := by
        rw [hw]
        exact List.mem_singleton_self w
      exact (List.mem_filter.mp hmem).1
    obtain ⟨p, hp, hpw⟩ := List.mem_map.mp hwmem
    have hname : w.name = p.name := by
      rw [← hpw]
      rfl
    have hpmem : p.name ∈ pd.map Player.name := List.mem_map_of_mem _ hp
    rw [he]
    show (1 : ℤ) = ((pd.map Player.name).count (holeWinners pd hh hi).headI.name : ℤ)
    rw [hw]
    show (1 : ℤ) = ((pd.map Player.name).count w.name : ℤ)
    rw [hname, List.count_eq_one_of_mem hnd hpmem]
    rfl
  · rw [he]
    show (0 : ℤ) = ((pd.map Player.name).count (Cell.str "No Winner") : ℤ)
    rw [List.count_eq_zero.mpr hs]
    rfl

/-- A raw scorecard row for a player of the given name: truthy first
cell, string third cell, nine parsable gross scores and handicap 0. -/
def sentinelRow (n : String) : List Cell :=
  [Cell.str n, Cell.null, Cell.str "mid"] ++ List.replicate 9 (Cell.str "4") ++
    [Cell.null, Cell.str "0"]

/-- C7 counterexample: with a player literally named "No Winner" and a
second player tying every hole, the sum of skinValues is 0 while the
count of holes whose winner name equals some player's name is 9, so the
claimed equality fails even though the player names are pairwise
distinct. -/
theorem C7_counterexample :
    analyzeSkins [sentinelRow "No Winner", sentinelRow "X"] =
      Except.ok (skinsResults
        [mkPlayer (sentinelRow "No Winner"), mkPlayer (sentinelRow "X")]) ∧
    ([mkPlayer (sentinelRow "No Winner"),
        mkPlayer (sentinelRow "X")].map Player.name).Nodup ∧
    ¬ (sumValues (skinsResults
          [mkPlayer (sentinelRow "No Winner"), mkPlayer (sentinelRow "X")]) =
        ([mkPlayer (sentinelRow "No Winner"), mkPlayer (sentinelRow "X")].map
          fun p => (countWins (skinsResults
            [mkPlayer (sentinelRow "No Winner"),
              mkPlayer (sentinelRow "X")]) p.name : ℤ)).sum) :=
  ⟨rfl, by decide, by decide⟩

/-- C7 amended: when the player names are pairwise distinct and no player
is named the sentinel "No Winner", the sum of skinValue over the nine
hole results equals the sum over players of the count of holes won by
that player, and that count agrees with the total reported by the
SkinsSummary aggregation. -/
theorem C7_skins_sum (pd : List Player)
    (hnd : (pd.map Player.name).Nodup)
    (hs : Cell.str "No Winner" ∉ pd.map Player.name) :
    sumValues (skinsResults pd) =
      (pd.map fun p => (countWins (skinsResults pd) p.name : ℤ)).sum ∧
    ∀ p ∈ pd, totalSkins (skinsResults pd) p.name =
      (countWins (skinsResults pd) p.name : ℤ) := by
  constructor
  · have hval : ∀ r ∈ skinsResults pd,
        HoleResult.value r = ((pd.map Player.name).count r.winner : ℤ) := by
      intro r hr
      obtain ⟨k, _, rfl⟩ := List.mem_map.mp hr
      exact holeResult_value_count pd _ _ hnd hs
    rw [sumValues, List.map_congr_left hval]
    have hcount : ∀ r ∈ skinsResults pd,
        (fun r : HoleResult => ((pd.map Player.name).count r.winner : ℤ)) r =
          (fun r : HoleResult =>
            (pd.map fun p => if r.winner = p.name then (1 : ℤ) else 0).sum) r := by
      intro r _
      show ((pd.map Player.name).count r.winner : ℤ) =
        (pd.map fun p => if r.winner = p.name then (1 : ℤ) else 0).sum
      rw [← sum_if_count (pd.map Player.name) r.winner, List.map_map]
      rfl
    rw [List.map_congr_left hcount, sum_map_swap]
    refine congrArg List.sum (List.map_congr_left fun p _ => ?_)
    exact (countWins_eq_sum (skinsResults pd) p.name).symm
  · intro p hp
    have hone : ∀ r ∈ (skinsResults pd).filter fun r => decide (r.winner = p.name),
        r.value = 1 := by
      intro r hr
      have hmem := (List.mem_filter.mp hr).1
      have hwn : r.winner = p.name := by
        have := (List.mem_filter.mp hr).2
        simpa using this
      obtain ⟨k, _, rfl⟩ := List.mem_map.mp hmem
      rcases holeResult_cases pd (actualHoleHandicaps.getD k 0) k with ⟨_, he⟩ | ⟨_, he⟩
      · rw [he]
      · exfalso
        rw [he] at hwn
        apply hs
        have hsent : Cell.str "No Winner" = p.name := hwn
        rw [hsent]
        exact List.mem_map_of_mem Player.name hp
    rw [totalSkins, sum_map_value_of_all_one _ hone, countWins]

/-- C7 witness: two distinct, non-sentinel players with different scores;
the sums agree. -/
theorem C7_skins_sum_witness :
    ([mkPlayer (sentinelRow "Alice"), mkPlayer (sentinelRow "Bob")].map
        Player.name).Nodup ∧
    Cell.str "No Winner" ∉
      ([mkPlayer (sentinelRow "Alice"), mkPlayer (sentinelRow "Bob")].map
        Player.name) ∧
    sumValues (skinsResults
        [mkPlayer (sentinelRow "Alice"), mkPlayer (sentinelRow "Bob")]) =
      ([mkPlayer (sentinelRow "Alice"), mkPlayer (sentinelRow "Bob")].map
        fun p => (countWins (skinsResults
          [mkPlayer (sentinelRow "Alice"),
            mkPlayer (sentinelRow "Bob")]) p.name : ℤ)).sum :=
  ⟨by decide, by decide,
   (C7_skins_sum
      [mkPlayer (sentinelRow "Alice"), mkPlayer (sentinelRow "Bob")]
      (by decide) (by decide)).1⟩
